import Mathlib

/-!
Shallow embedding of the adaptive replication engine in
`tmp/data-sync/ecosense_sync.py` (class `ProductionClient` and
`EcosenseSync._sync_all_data_paginated`).

Modelling conventions:
* Python floats are modelled as exact rationals (`ℚ`); every float the
  engine manipulates is produced by multiplications by 0.9, 1.1, 2.0,
  1.5, 0.5 and by `min`/`max` against literal bounds.
* `int(x)` on a non-negative float is truncation, i.e. the floor, so
  `int(self.current_batch_size * 1.1)` is modelled as `bs * 11 / 10`
  (natural-number division) and `int(self.current_batch_size * 0.5)` as
  `bs / 2`.
* Network effects are abstracted by a `script : ℕ → AttemptResult`
  oracle consumed one entry per HTTP attempt, in program order.
-/

/-- The outcome of one `requests.post` attempt inside
`ProductionClient.bulk_insert`: HTTP 200, HTTP 429, any other HTTP
status, a `requests.exceptions.Timeout`, or any other exception. -/
inductive AttemptResult where
  | ok
  | http429
  | httpOther
  | timeoutExc
  | otherExc
deriving DecidableEq, Repr

/-- A record of one invocation of `ProductionClient._adaptive_delay`:
`succCall` is `(success=True, was_rate_limited=False)`, `rateCall` is
`(success=False, was_rate_limited=True)`, `failCall` is
`(success=False, was_rate_limited=False)`. -/
inductive AdaptiveCall where
  | succCall
  | rateCall
  | failCall
deriving DecidableEq, Repr

/-- The adaptive rate-limiting state held as instance fields of
`ProductionClient` (`current_batch_size`, `current_delay`,
`success_count`, `failure_count`). -/
structure RateState where
  current_batch_size : ℕ
  current_delay : ℚ
  success_count : ℕ
  failure_count : ℕ
deriving DecidableEq, Repr

/-- `ProductionClient.base_batch_size` (1000). -/
def base_batch_size : ℕ := 1000

/-- `ProductionClient.base_delay` (0.6 seconds). -/
def base_delay : ℚ := 3 / 5

/-- `ProductionClient.max_retries` (5). -/
def max_retries : ℕ := 5

/-- `ProductionClient.backoff_multiplier` (2.0). -/
def backoff_multiplier : ℚ := 2

/-- The rate state established by `ProductionClient.__init__`:
`current_batch_size = base_batch_size = 1000`,
`current_delay = base_delay = 0.6`, both counters zero. -/
def init_rate_state : RateState :=
  { current_batch_size := base_batch_size
    current_delay := base_delay
    success_count := 0
    failure_count := 0 }

/-- `ProductionClient._adaptive_delay(success, was_rate_limited)`,
transcribed branch by branch from the source:
on `success and not was_rate_limited` increment `success_count`, zero
`failure_count`, and once `success_count >= 3` set
`current_delay = max(0.5, current_delay * 0.9)`,
`current_batch_size = min(5000, int(current_batch_size * 1.1))` and
reset `success_count`; `elif was_rate_limited` increment
`failure_count`, zero `success_count`,
`current_delay = min(60.0, current_delay * backoff_multiplier)`,
`current_batch_size = max(200, int(current_batch_size * 0.5))`;
`else` increment `failure_count`, zero `success_count`,
`current_delay = min(30.0, current_delay * 1.5)`. -/
def adaptive_delay (s : RateState) (success : Bool) (was_rate_limited : Bool) :
    RateState :=
  if success && !was_rate_limited then
    let sc := s.success_count + 1
    if 3 ≤ sc then
      { s with
          current_delay := max (1 / 2) (s.current_delay * (9 / 10))
          current_batch_size := min 5000 (s.current_batch_size * 11 / 10)
          success_count := 0
          failure_count := 0 }
    else
      { s with success_count := sc, failure_count := 0 }
  else if was_rate_limited then
    { s with
        failure_count := s.failure_count + 1
        success_count := 0
        current_delay := min 60 (s.current_delay * backoff_multiplier)
        current_batch_size := max 200 (s.current_batch_size / 2) }
  else
    { s with
        failure_count := s.failure_count + 1
        success_count := 0
        current_delay := min 30 (s.current_delay * (3 / 2)) }

/-- The final outcome of one batch for the Rate Controller, as the spec
classifies it: `Success`, `RateLimited`, or any other failure
(`ServerError` / `Timeout` / `TransportError`). -/
inductive BatchOutcome where
  | success
  | rateLimited
  | otherFailure
deriving DecidableEq, Repr

/-- Modelled from the spec: the Rate Controller transition table of
spec section 4.2, written from the spec's own words (increment /
reset of the counters, multiply `delay` by 0.9 floored at
`min_delay = 0.5`, multiply `batch_size` by 1.1 capped at
`max_batch = 5000` once 3 consecutive successes accumulate; on
`RateLimited` multiply `delay` by `backoff_multiplier` capped at
`max_delay = 60` and halve `batch_size` floored at `min_batch = 200`;
on other failures multiply `delay` by 1.5 capped at the lower ceiling
30). Used only as the comparison point for the refinement claim. -/
def rate_controller_spec (s : RateState) : BatchOutcome → RateState
  | .success =>
      if 3 ≤ s.success_count + 1 then
        { current_batch_size := min 5000 (s.current_batch_size * 11 / 10)
          current_delay := max (1 / 2) (s.current_delay * (9 / 10))
          success_count := 0
          failure_count := 0 }
      else
        { s with success_count := s.success_count + 1, failure_count := 0 }
  | .rateLimited =>
      { current_batch_size := max 200 (s.current_batch_size / 2)
        current_delay := min 60 (s.current_delay * 2)
        success_count := 0
        failure_count := s.failure_count + 1 }
  | .otherFailure =>
      { s with
          current_delay := min 30 (s.current_delay * (3 / 2))
          success_count := 0
          failure_count := s.failure_count + 1 }

/-- Apply one `BatchOutcome` to the rate state through the boolean
calling convention `bulk_insert` actually uses for `_adaptive_delay`. -/
def apply_outcome (s : RateState) : BatchOutcome → RateState
  | .success => adaptive_delay s true false
  | .rateLimited => adaptive_delay s false true
  | .otherFailure => adaptive_delay s false false

/-- Fold a sequence of batch outcomes through the rate controller. -/
def apply_outcomes (s : RateState) : List BatchOutcome → RateState
  | [] => s
  | o :: rest => apply_outcomes (apply_outcome s o) rest

/-- The bounds the spec asserts for the rate state:
`batch_size ∈ [200, 5000]` and `delay ∈ [0.5, 60.0]`. -/
def RateState.Bounded (s : RateState) : Prop :=
  200 ≤ s.current_batch_size ∧ s.current_batch_size ≤ 5000 ∧
    (1 / 2 : ℚ) ≤ s.current_delay ∧ s.current_delay ≤ 60

/-- The classification of one attempt for the `_adaptive_delay` trace:
an HTTP 200 attempt triggers a Success-driven call, an HTTP 429 attempt
a RateLimited-driven call, any other HTTP status a failure-driven call;
timeout and generic exceptions trigger no call at all. -/
def call_kind : AttemptResult → Option AdaptiveCall
  | .ok => some .succCall
  | .http429 => some .rateCall
  | .httpOther => some .failCall
  | .timeoutExc => none
  | .otherExc => none

/-- Result of the per-batch retry loop
(`for attempt in range(self.max_retries)` in `bulk_insert`):
whether the batch was sent (`batch_success`), the rate state after the
loop, the index of the next unread script entry, the `_adaptive_delay`
invocations made (in order), and the attempt results consumed. -/
structure RetryResult where
  ok : Bool
  state : RateState
  nextIdx : ℕ
  calls : List AdaptiveCall
  attempts : List AttemptResult
deriving DecidableEq, Repr

/-- The retry loop of `ProductionClient.bulk_insert` for one batch,
fuelled by the number of remaining attempts (started at `max_retries`).
Branches as in the source: HTTP 200 calls
`_adaptive_delay(success=True, was_rate_limited=False)` and stops with
success; HTTP 429 calls `_adaptive_delay(success=False,
was_rate_limited=True)`, sleeps, and retries (exhausting all attempts
on 429 leaves `batch_success = False`); any other status calls
`_adaptive_delay(success=False, was_rate_limited=False)` and retries,
returning failure from the last attempt; `requests.exceptions.Timeout`
and generic exceptions retry without touching `_adaptive_delay` and
fail on the last attempt. -/
def run_retries (script : ℕ → AttemptResult) :
    ℕ → RateState → ℕ → RetryResult
  | 0, s, idx => ⟨false, s, idx, [], []⟩
  | fuel + 1, s, idx =>
    match script idx with
    | .ok =>
        ⟨true, adaptive_delay s true false, idx + 1,
          [.succCall], [.ok]⟩
    | .http429 =>
        let r := run_retries script fuel (adaptive_delay s false true)
          (idx + 1)
        ⟨r.ok, r.state, r.nextIdx, .rateCall :: r.calls,
          .http429 :: r.attempts⟩
    | .httpOther =>
        let r := run_retries script fuel (adaptive_delay s false false)
          (idx + 1)
        ⟨r.ok, r.state, r.nextIdx, .failCall :: r.calls,
          .httpOther :: r.attempts⟩
    | .timeoutExc =>
        let r := run_retries script fuel s (idx + 1)
        ⟨r.ok, r.state, r.nextIdx, r.calls, .timeoutExc :: r.attempts⟩
    | .otherExc =>
        let r := run_retries script fuel s (idx + 1)
        ⟨r.ok, r.state, r.nextIdx, r.calls, .otherExc :: r.attempts⟩

/-- Result of one `bulk_insert` call: the returned boolean, the rate
state after the call, the next unread script entry, and per-batch
traces of `_adaptive_delay` invocations and consumed attempts (one
entry per batch that was actually dispatched). -/
structure BulkResult where
  ok : Bool
  state : RateState
  nextIdx : ℕ
  batchCalls : List (List AdaptiveCall)
  batchAttempts : List (List AttemptResult)
deriving DecidableEq, Repr

/-- The sizes of the slices `data_points[i : i + effective_batch_size]`
for `i in range(0, total_points, effective_batch_size)`: the partition
of `total` into `ceil(total / eb)` chunks of size `eb` with a shorter
final chunk. -/
def batch_slices (total eb : ℕ) : List ℕ :=
  (List.range ((total + eb - 1) / eb)).map fun k => min eb (total - k * eb)

/-- `effective_batch_size = batch_size or self.current_batch_size`:
Python `or` falls through on `None` and on `0`. -/
def effective_batch_size (override : Option ℕ) (s : RateState) : ℕ :=
  match override with
  | some b => if b = 0 then s.current_batch_size else b
  | none => s.current_batch_size

/-- The per-batch loop of `bulk_insert` over the list of batch sizes:
each batch runs the retry loop with `max_retries` fuel; a failed batch
(`if not batch_success: return False`, or the in-loop `return False`
arms) aborts the whole call without dispatching the remaining
batches. -/
def run_batches (script : ℕ → AttemptResult) :
    List ℕ → RateState → ℕ → BulkResult
  | [], s, idx => ⟨true, s, idx, [], []⟩
  | _b :: rest, s, idx =>
    let r := run_retries script max_retries s idx
    if r.ok then
      let rr := run_batches script rest r.state r.nextIdx
      ⟨rr.ok, rr.state, rr.nextIdx, r.calls :: rr.batchCalls,
        r.attempts :: rr.batchAttempts⟩
    else
      ⟨false, r.state, r.nextIdx, [r.calls], [r.attempts]⟩

/-- `ProductionClient.bulk_insert(data_points, batch_size)` modelled on
the number of data points: empty input returns `True` immediately;
otherwise the input is partitioned once with the effective batch size
(fixed for the whole call) and each slice goes through the retry
loop. `idx` is the position in the attempt script at which this call
starts reading. -/
def bulk_insert (script : ℕ → AttemptResult) (total : ℕ)
    (override : Option ℕ) (s : RateState) (idx : ℕ) : BulkResult :=
  if total = 0 then ⟨true, s, idx, [], []⟩
  else run_batches script (batch_slices total (effective_batch_size override s)) s idx

/-- Attempt script on which every dispatch attempt returns HTTP 200. -/
def all_ok_script : ℕ → AttemptResult := fun _ => .ok

/-- Attempt script on which every dispatch attempt returns a
non-success, non-429 HTTP status. -/
def all_fail_script : ℕ → AttemptResult := fun _ => .httpOther

/-- Attempt script on which the very first dispatch attempt returns
HTTP 429 and every later attempt returns HTTP 200. -/
def rl_then_ok_script : ℕ → AttemptResult :=
  fun i => if i = 0 then .http429 else .ok

/-- One Success-driven rate-controller step, used to describe the state
after a run of all-successful batches. -/
def success_step (s : RateState) : RateState := adaptive_delay s true false

/-- Observable events of `EcosenseSync._sync_all_data_paginated`:
a page fetch (`LIMIT page_size OFFSET offset`, returning `got` rows),
a page successfully sent by `bulk_insert`, a page whose `bulk_insert`
returned `False`, and the fixed `time.sleep(1)` pacing pause. -/
inductive SyncEvent where
  | fetch (offset got : ℕ)
  | sent (size : ℕ)
  | pageFail (size : ℕ)
  | pause
deriving DecidableEq, Repr

/-- Result of a paginated sync run: the returned boolean, the pages
successfully sent (in order), the event trace, the rate state after
the run, and the next unread attempt-script entry. -/
structure PageRun (α : Type) where
  ok : Bool
  pages : List (List α)
  events : List SyncEvent
  state : RateState
  nextIdx : ℕ

/-- The `while True` loop of `_sync_all_data_paginated` over an
ordered dataset: fetch `remaining.take P` (rows `offset` through
`offset + P - 1` of the dataset, i.e. `LIMIT P OFFSET offset`); an
empty page breaks the loop with overall success; otherwise the page
goes to `bulk_insert`, whose failure aborts the run immediately
(`return False`), and whose success is followed by `offset += P` and
the fixed `time.sleep(1)` pause before the next iteration. -/
def sync_pages {α : Type} (P : ℕ) (script : ℕ → AttemptResult)
    (override : Option ℕ) (remaining : List α) (offset idx : ℕ)
    (s : RateState) : PageRun α :=
  let rows := remaining.take P
  if h : rows.isEmpty then
    ⟨true, [], [.fetch offset 0], s, idx⟩
  else
    let b := bulk_insert script rows.length override s idx
    if b.ok then
      let rest := sync_pages P script override (remaining.drop P)
        (offset + P) b.nextIdx b.state
      ⟨rest.ok, rows :: rest.pages,
        .fetch offset rows.length :: .sent rows.length :: .pause ::
          rest.events,
        rest.state, rest.nextIdx⟩
    else
      ⟨false, [], [.fetch offset rows.length, .pageFail rows.length],
        b.state, b.nextIdx⟩
termination_by remaining.length
decreasing_by
  have hP : P ≠ 0 := by rintro rfl; exact h rfl
  have hrem : remaining ≠ [] := by
    rintro rfl
    exact h (by simp [show rows = [] from List.take_nil])
  rw [List.length_drop]
  exact Nat.sub_lt (List.length_pos.mpr hrem) (Nat.pos_of_ne_zero hP)

/-- The page size hard-coded in `_sync_all_data_paginated`
(`page_size = 25000`). -/
def page_size : ℕ := 25000

/-- `EcosenseSync._sync_all_data_paginated(batch_size, dry_run)`:
in dry-run mode the function returns `True` after the initial count
query, issuing no fetch or dispatch; otherwise it pages through the
dataset with `page_size = 25000` starting at offset 0. -/
def sync_all_data_paginated {α : Type} (script : ℕ → AttemptResult)
    (override : Option ℕ) (dataset : List α) (dry_run : Bool)
    (s : RateState) : PageRun α :=
  if dry_run then ⟨true, [], [], s, 0⟩
  else sync_pages page_size script override dataset 0 0 s

/-- The event trace of a run in which every page dispatch succeeds:
each page contributes a fetch, a sent, and a pacing pause, and the run
ends with the terminal empty fetch. -/
def ok_trace (P : ℕ) : List ℕ → ℕ → List SyncEvent
  | [], offset => [.fetch offset 0]
  | n :: rest, offset =>
      .fetch offset n :: .sent n :: .pause :: ok_trace P rest (offset + P)

/-- Whether an event is the inter-page pacing pause. -/
def is_pause : SyncEvent → Bool
  | .pause => true
  | _ => false

/-- Whether an event is a page fetch. -/
def is_fetch : SyncEvent → Bool
  | .fetch _ _ => true
  | _ => false

/-- Number of pacing pauses in an event trace. -/
def count_pauses (events : List SyncEvent) : ℕ := events.countP is_pause

/-- Number of page fetches in an event trace. -/
def count_fetches (events : List SyncEvent) : ℕ := events.countP is_fetch

theorem adaptive_delay_success_eq (s : RateState) :
    adaptive_delay s true false =
      if 3 ≤ s.success_count + 1 then
        { current_batch_size := min 5000 (s.current_batch_size * 11 / 10)
          current_delay := max (1 / 2) (s.current_delay * (9 / 10))
          success_count := 0
          failure_count := 0 }
      else
        { s with success_count := s.success_count + 1, failure_count := 0 } :=
  rfl

theorem adaptive_delay_rate_limited_eq (s : RateState) :
    adaptive_delay s false true =
      { current_batch_size := max 200 (s.current_batch_size / 2)
        current_delay := min 60 (s.current_delay * 2)
        success_count := 0
        failure_count := s.failure_count + 1 } :=
  rfl

theorem adaptive_delay_other_failure_eq (s : RateState) :
    adaptive_delay s false false =
      { s with
          current_delay := min 30 (s.current_delay * (3 / 2))
          success_count := 0
          failure_count := s.failure_count + 1 } :=
  rfl

theorem mul_eleven_div_ten_le (bs : ℕ) : bs ≤ bs * 11 / 10 := by
  calc bs = bs * 10 / 10 := by omega
    _ ≤ bs * 11 / 10 := Nat.div_le_div_right (by omega)

theorem bounded_apply_outcome {s : RateState} (h : s.Bounded)
    (o : BatchOutcome) : (apply_outcome s o).Bounded := by
  obtain ⟨h1, h2, h3, h4⟩ := h
  have hd0 : (0 : ℚ) ≤ s.current_delay := le_trans (by norm_num) h3
  cases o with
  | success =>
      rw [show apply_outcome s .success = adaptive_delay s true false from
        rfl, adaptive_delay_success_eq]
      split
      · refine ⟨le_min (by norm_num) ?_, min_le_left _ _,
          le_max_left _ _, max_le (by norm_num) ?_⟩
        · exact le_trans h1 (mul_eleven_div_ten_le _)
        · nlinarith
      · exact ⟨h1, h2, h3, h4⟩
  | rateLimited =>
      rw [show apply_outcome s .rateLimited = adaptive_delay s false true
        from rfl, adaptive_delay_rate_limited_eq]
      refine ⟨le_max_left _ _, max_le (by norm_num) ?_,
        le_min (by norm_num) ?_, min_le_left _ _⟩
      · exact le_trans (Nat.div_le_self _ _) h2
      · nlinarith
  | otherFailure =>
      rw [show apply_outcome s .otherFailure = adaptive_delay s false false
        from rfl, adaptive_delay_other_failure_eq]
      refine ⟨h1, h2, le_min (by norm_num) ?_, le_trans (min_le_left _ _)
        (by norm_num)⟩
      nlinarith

theorem apply_outcomes_append (s : RateState)
    (l1 l2 : List BatchOutcome) :
    apply_outcomes s (l1 ++ l2) = apply_outcomes (apply_outcomes s l1) l2 := by
  induction l1 generalizing s with
  | nil => rfl
  | cons o rest ih => exact ih (apply_outcome s o)

theorem bounded_apply_outcomes {s : RateState} (h : s.Bounded) :
    ∀ outcomes : List BatchOutcome, (apply_outcomes s outcomes).Bounded := by
  intro outcomes
  induction outcomes generalizing s with
  | nil => exact h
  | cons o rest ih => exact ih (bounded_apply_outcome h o)

/-- C2: `_adaptive_delay` implements exactly the AIMD transition table
of the spec — for every rate state, the boolean-driven source
transition agrees with the spec's outcome-driven table on all three
outcome classes, and the other-failure delay ceiling (30.0) is
strictly below the rate-limit ceiling (60.0). -/
theorem c2_adaptive_delay_matches_aimd_table (s : RateState) :
    adaptive_delay s true false = rate_controller_spec s .success ∧
    adaptive_delay s false true = rate_controller_spec s .rateLimited ∧
    adaptive_delay s false false = rate_controller_spec s .otherFailure ∧
    (30 : ℚ) < 60 := by
  refine ⟨?_, rfl, rfl, by norm_num⟩
  rw [adaptive_delay_success_eq]
  rfl

/-- C3: from the initial rate state (`batch_size = 1000`,
`delay = 0.6`), every sequence of `_adaptive_delay` transitions keeps
`current_batch_size ∈ [200, 5000]` and `current_delay ∈ [0.5, 60.0]`. -/
theorem init_rate_state_bounded : init_rate_state.Bounded := by
  refine ⟨?_, ?_, ?_, ?_⟩ <;>
    norm_num [init_rate_state, base_batch_size, base_delay]

theorem c3_rate_state_bounds_invariant (outcomes : List BatchOutcome) :
    (apply_outcomes init_rate_state outcomes).Bounded :=
  bounded_apply_outcomes init_rate_state_bounded outcomes

/-- C9: the non-rate-limited failure branch of `_adaptive_delay`
leaves `current_batch_size` unchanged; only `current_delay` and the
two counters are rewritten on that branch. -/
theorem c9_other_failure_preserves_batch_size (s : RateState) :
    (adaptive_delay s false false).current_batch_size =
      s.current_batch_size ∧
    (adaptive_delay s false false).current_delay =
      min 30 (s.current_delay * (3 / 2)) ∧
    (adaptive_delay s false false).success_count = 0 ∧
    (adaptive_delay s false false).failure_count = s.failure_count + 1 :=
  ⟨rfl, rfl, rfl, rfl⟩

/-- C10: after seven consecutive rate-limited outcomes the delay is
pinned at the 60.0 ceiling, and one further non-rate-limited failure
strictly decreases it to `min(30.0, 60.0 * 1.5) = 30.0`, so delay is
not monotone across consecutive failure outcomes. -/
theorem c10_delay_decrease_on_failure_after_rate_limit :
    (apply_outcomes init_rate_state
        (List.replicate 7 BatchOutcome.rateLimited)).current_delay = 60 ∧
    (apply_outcomes init_rate_state
        (List.replicate 7 BatchOutcome.rateLimited ++
          [BatchOutcome.otherFailure])).current_delay = 30 ∧
    (30 : ℚ) < 60 := by
  have h7 : apply_outcomes init_rate_state
      (List.replicate 7 BatchOutcome.rateLimited) =
      { current_batch_size := 200, current_delay := 60,
        success_count := 0, failure_count := 7 } := by
    simp only [List.replicate, apply_outcomes, apply_outcome,
      adaptive_delay_rate_limited_eq, init_rate_state, base_batch_size,
      base_delay]
    norm_num [min_def, max_def]
  refine ⟨by rw [h7], ?_, by norm_num⟩
  rw [apply_outcomes_append, h7]
  show (adaptive_delay _ false false).current_delay = 30
  rw [adaptive_delay_other_failure_eq]
  norm_num [min_def]

theorem run_batches_cons (script : ℕ → AttemptResult) (b : ℕ)
    (rest : List ℕ) (s : RateState) (idx : ℕ) :
    run_batches script (b :: rest) s idx =
      if (run_retries script max_retries s idx).ok then
        ⟨(run_batches script rest (run_retries script max_retries s idx).state
            (run_retries script max_retries s idx).nextIdx).ok,
          (run_batches script rest (run_retries script max_retries s idx).state
            (run_retries script max_retries s idx).nextIdx).state,
          (run_batches script rest (run_retries script max_retries s idx).state
            (run_retries script max_retries s idx).nextIdx).nextIdx,
          (run_retries script max_retries s idx).calls ::
            (run_batches script rest
              (run_retries script max_retries s idx).state
              (run_retries script max_retries s idx).nextIdx).batchCalls,
          (run_retries script max_retries s idx).attempts ::
            (run_batches script rest
              (run_retries script max_retries s idx).state
              (run_retries script max_retries s idx).nextIdx).batchAttempts⟩
      else
        ⟨false, (run_retries script max_retries s idx).state,
          (run_retries script max_retries s idx).nextIdx,
          [(run_retries script max_retries s idx).calls],
          [(run_retries script max_retries s idx).attempts]⟩ := rfl

/-- C1: corrected — in the source, `_adaptive_delay` is fed once per
HTTP-response attempt, not once per batch with the final outcome: the
controller trace of each batch is exactly the per-attempt outcome
classification of the attempts consumed by that batch's retry loop
(Success-driven for a 200 attempt, RateLimited-driven for each 429
attempt, failure-driven for each other-status attempt, and nothing for
timeout or transport exceptions). -/
theorem c1_amended_per_attempt_feedback (script : ℕ → AttemptResult)
    (fuel : ℕ) (s : RateState) (idx : ℕ) :
    (run_retries script fuel s idx).calls =
      (run_retries script fuel s idx).attempts.filterMap call_kind := by
  induction fuel generalizing s idx with
  | zero => rfl
  | succ fuel ih =>
      cases h : script idx <;>
        simp [run_retries, h, call_kind, List.filterMap_cons, ih]

/-- C1 counterexample: a single batch whose first attempt is rate
limited (HTTP 429) and whose second attempt succeeds drives the rate
controller twice — one RateLimited-driven call and one Success-driven
call — even though the batch's final outcome is success, contradicting
the claim that the controller is updated exactly once per batch with
the final outcome and sees no failure-driven update. -/
theorem c1_counterexample_two_calls_for_one_batch :
    (bulk_insert rl_then_ok_script 500 none init_rate_state 0).ok = true ∧
    (bulk_insert rl_then_ok_script 500 none init_rate_state 0).batchCalls =
      [[.rateCall, .succCall]] ∧
    [[AdaptiveCall.rateCall, AdaptiveCall.succCall]] ≠
      [[AdaptiveCall.succCall]] := by
  decide

/-- C4: a batch whose first attempt returns HTTP 429 and whose second
returns HTTP 200 is treated as sent: `bulk_insert` continues to the
next batch and returns overall success, while the rate state has
undergone exactly one RateLimited-driven update (delay multiplied by
`backoff_multiplier` to 1.2, batch size halved from 1000 to 500) from
the first attempt, followed by the Success-driven updates. -/
theorem c4_retry_429_then_ok_one_shrink :
    (bulk_insert rl_then_ok_script 1500 none init_rate_state 0).ok = true ∧
    (bulk_insert rl_then_ok_script 1500 none init_rate_state 0).batchCalls =
      [[.rateCall, .succCall], [.succCall]] ∧
    (bulk_insert rl_then_ok_script 1500 none init_rate_state 0).state =
      adaptive_delay
        (adaptive_delay (adaptive_delay init_rate_state false true)
          true false)
        true false ∧
    (adaptive_delay init_rate_state false true).current_batch_size = 500 ∧
    (adaptive_delay init_rate_state false true).current_delay =
      base_delay * backoff_multiplier := by
  refine ⟨by decide, by decide, rfl, by decide, ?_⟩
  rw [adaptive_delay_rate_limited_eq]
  norm_num [init_rate_state, base_delay, backoff_multiplier, min_def]

/-- C5: with 3,500 points, an effective batch size of 1000 (the
adaptive size at call start) and every attempt succeeding,
`bulk_insert` sends exactly 4 batches of sizes 1000, 1000, 1000, 500
in that order (the partition is computed once and stays fixed), and
`current_batch_size` grows exactly once — still 1000 after two
batches, 1100 = int(1000 * 1.1) after the third consecutive success —
ending the call at 1100. -/
theorem c5_scenario_3500_points :
    effective_batch_size none init_rate_state = 1000 ∧
    batch_slices 3500 1000 = [1000, 1000, 1000, 500] ∧
    (bulk_insert all_ok_script 3500 none init_rate_state 0).ok = true ∧
    (bulk_insert all_ok_script 3500 none init_rate_state 0).batchCalls =
      [[.succCall], [.succCall], [.succCall], [.succCall]] ∧
    (run_batches all_ok_script [1000, 1000] init_rate_state
        0).state.current_batch_size = 1000 ∧
    (run_batches all_ok_script [1000, 1000, 1000] init_rate_state
        0).state.current_batch_size = 1100 ∧
    (bulk_insert all_ok_script 3500 none init_rate_state
        0).state.current_batch_size = 1100 := by
  decide

theorem batch_slices_length (total eb : ℕ) :
    (batch_slices total eb).length = (total + eb - 1) / eb := by
  simp [batch_slices]

theorem batch_slices_zero (P : ℕ) (hP : 0 < P) : batch_slices 0 P = [] := by
  unfold batch_slices
  rw [show (0 + P - 1) / P = 0 from Nat.div_eq_of_lt (by omega)]
  rfl

theorem ceil_div_pos_eq (len P : ℕ) (hl : 0 < len) (hP : 0 < P) :
    (len + P - 1) / P = (len - P + P - 1) / P + 1 := by
  have h1 : len + P - 1 = (len - 1) + P := by omega
  rw [h1, Nat.add_div_right _ hP]
  rcases le_or_lt P len with h2 | h2
  · have h3 : len - P + P - 1 = len - 1 := by omega
    rw [h3]
  · have h3 : len - P = 0 := by omega
    rw [h3, Nat.zero_add, Nat.div_eq_of_lt (by omega),
      Nat.div_eq_of_lt (by omega)]

theorem batch_slices_cons (len P : ℕ) (hl : 0 < len) (hP : 0 < P) :
    batch_slices len P = min P len :: batch_slices (len - P) P := by
  unfold batch_slices
  rw [ceil_div_pos_eq len P hl hP, List.range_succ_eq_map, List.map_cons,
    List.map_map]
  congr 1
  · simp
  · refine List.map_congr_left fun k _ => ?_
    show min P (len - (k + 1) * P) = min P (len - P - k * P)
    rw [Nat.succ_mul, Nat.sub_sub, Nat.add_comm]

theorem run_batches_all_ok_ok : ∀ (bs : List ℕ) (s : RateState) (idx : ℕ),
    (run_batches all_ok_script bs s idx).ok = true := by
  intro bs
  induction bs with
  | nil => intro s idx; rfl
  | cons b rest ih =>
      intro s idx
      rw [run_batches_cons,
        show run_retries all_ok_script max_retries s idx =
          ⟨true, success_step s, idx + 1, [.succCall], [.ok]⟩ from rfl]
      exact ih _ _

theorem bulk_insert_all_ok (total : ℕ) (override : Option ℕ)
    (s : RateState) (idx : ℕ) :
    (bulk_insert all_ok_script total override s idx).ok = true := by
  unfold bulk_insert
  split
  · rfl
  · exact run_batches_all_ok_ok _ _ _

theorem sync_pages_all_ok (P : ℕ) (hP : 0 < P) (override : Option ℕ) :
    ∀ (n : ℕ) (l : List ℕ), l.length ≤ n →
    ∀ (offset idx : ℕ) (s : RateState),
      (sync_pages P all_ok_script override l offset idx s).ok = true ∧
      (sync_pages P all_ok_script override l offset idx s).pages.flatten =
        l ∧
      (sync_pages P all_ok_script override l offset idx s).pages.map
        List.length = batch_slices l.length P ∧
      (∀ p ∈ (sync_pages P all_ok_script override l offset idx s).pages,
        p ≠ []) ∧
      (sync_pages P all_ok_script override l offset idx s).events =
        ok_trace P
          ((sync_pages P all_ok_script override l offset idx
            s).pages.map List.length) offset := by
  intro n
  induction n with
  | zero =>
      intro l hl offset idx s
      have hnil : l = [] := List.length_eq_zero.mp (Nat.le_zero.mp hl)
      subst hnil
      rw [sync_pages]
      simp [batch_slices_zero P hP, ok_trace]
  | succ n ih =>
      intro l hl offset idx s
      by_cases hrow : (l.take P).isEmpty = true
      · have hnil : l = [] := by
          rcases List.take_eq_nil_iff.mp (List.isEmpty_iff.mp hrow) with
            h0 | h0
          · omega
          · exact h0
        subst hnil
        rw [sync_pages]
        simp [batch_slices_zero P hP, ok_trace]
      · have hlnil : l ≠ [] := by
          intro hc
          subst hc
          exact hrow (by simp)
        have hlpos : 0 < l.length := List.length_pos.mpr hlnil
        have hb : (bulk_insert all_ok_script (l.take P).length override s
            idx).ok = true := bulk_insert_all_ok _ _ _ _
        rw [sync_pages, dif_neg hrow, if_pos hb]
        obtain ⟨iok, iflat, isz, inn, iev⟩ := ih (l.drop P)
          (by rw [List.length_drop]; omega) (offset + P)
          (bulk_insert all_ok_script (l.take P).length override s
            idx).nextIdx
          (bulk_insert all_ok_script (l.take P).length override s idx).state
        refine ⟨iok, ?_, ?_, ?_, ?_⟩
        · show l.take P ++ _ = l
          rw [iflat, List.take_append_drop]
        · show (l.take P).length :: _ = _
          rw [isz, List.length_drop, List.length_take,
            batch_slices_cons l.length P hlpos hP]
        · intro p hp
          rcases List.mem_cons.mp hp with hc | hc
          · subst hc
            exact fun hc2 => hrow (by rw [hc2]; rfl)
          · exact inn p hc
        · show SyncEvent.fetch offset (l.take P).length ::
            SyncEvent.sent (l.take P).length :: SyncEvent.pause :: _ = _
          rw [List.map_cons, ok_trace, iev]

theorem count_pauses_ok_trace (P : ℕ) :
    ∀ (sizes : List ℕ) (offset : ℕ),
      count_pauses (ok_trace P sizes offset) = sizes.length := by
  intro sizes
  induction sizes with
  | nil => intro offset; rfl
  | cons m rest ih =>
      intro offset
      simp [ok_trace, count_pauses, List.countP_cons, is_pause] at ih ⊢
      exact ih (offset + P)

theorem count_fetches_ok_trace (P : ℕ) :
    ∀ (sizes : List ℕ) (offset : ℕ),
      count_fetches (ok_trace P sizes offset) = sizes.length + 1 := by
  intro sizes
  induction sizes with
  | nil => intro offset; rfl
  | cons m rest ih =>
      intro offset
      simp [ok_trace, count_fetches, List.countP_cons, is_fetch] at ih ⊢
      exact ih (offset + P)

/-- C6: for every dataset of N records and every positive page size P,
the all-successful paginated sync visits exactly `ceil(N / P)`
non-empty pages whose concatenation is exactly the dataset (every
record covered exactly once, in order), performs exactly one more
fetch than there are pages (the terminal empty fetch on which the loop
breaks), and in particular N = 60000 with P = 25000 yields exactly 3
pages of sizes 25000, 25000, 10000. -/
theorem c6_pagination_completeness (l : List ℕ) (P : ℕ)
    (override : Option ℕ) (s : RateState) (hP : 0 < P) :
    (sync_pages P all_ok_script override l 0 0 s).ok = true ∧
    (sync_pages P all_ok_script override l 0 0 s).pages.flatten = l ∧
    (sync_pages P all_ok_script override l 0 0 s).pages.length =
      (l.length + P - 1) / P ∧
    (∀ p ∈ (sync_pages P all_ok_script override l 0 0 s).pages, p ≠ []) ∧
    count_fetches (sync_pages P all_ok_script override l 0 0 s).events =
      (sync_pages P all_ok_script override l 0 0 s).pages.length + 1 ∧
    (l.length = 60000 → P = 25000 →
      (sync_pages P all_ok_script override l 0 0 s).pages.map List.length =
        [25000, 25000, 10000]) := by
  obtain ⟨hok, hflat, hsz, hnn, hev⟩ :=
    sync_pages_all_ok P hP override l.length l le_rfl 0 0 s
  refine ⟨hok, hflat, ?_, hnn, ?_, ?_⟩
  · have h := congrArg List.length hsz
    rw [List.length_map, batch_slices_length] at h
    exact h
  · rw [hev, count_fetches_ok_trace, List.length_map]
  · intro h60 h25
    rw [hsz, h60, h25]
    decide

theorem c6_pagination_completeness_witness :
    (0 : ℕ) < 25000 ∧
    (sync_pages 25000 all_ok_script none (List.range 60000) 0 0
        init_rate_state).ok = true ∧
    (sync_pages 25000 all_ok_script none (List.range 60000) 0 0
        init_rate_state).pages.flatten = List.range 60000 ∧
    (sync_pages 25000 all_ok_script none (List.range 60000) 0 0
        init_rate_state).pages.map List.length = [25000, 25000, 10000] := by
  have h := c6_pagination_completeness (List.range 60000) 25000 none
    init_rate_state (by norm_num)
  exact ⟨by norm_num, h.1, h.2.1, h.2.2.2.2.2 (by simp) rfl⟩

/-- C7: corrected — the code sleeps `time.sleep(1)` after every
successfully sent page, including the last one: for the 3-page run on
60000 records the trace contains three pacing pauses, one of them
after the final page (followed only by the terminal empty fetch), so
the pause count equals the page count, not page count minus one as the
claim's "never after the last page" would require. -/
theorem c7_counterexample_pause_after_last_page :
    (sync_all_data_paginated all_ok_script none (List.range 60000) false
        init_rate_state).pages.length = 3 ∧
    count_pauses (sync_all_data_paginated all_ok_script none
        (List.range 60000) false init_rate_state).events = 3 ∧
    (sync_all_data_paginated all_ok_script none (List.range 60000) false
        init_rate_state).events =
      [.fetch 0 25000, .sent 25000, .pause,
       .fetch 25000 25000, .sent 25000, .pause,
       .fetch 50000 10000, .sent 10000, .pause,
       .fetch 75000 0] ∧
    ¬(count_pauses (sync_all_data_paginated all_ok_script none
        (List.range 60000) false init_rate_state).events =
      (sync_all_data_paginated all_ok_script none (List.range 60000) false
        init_rate_state).pages.length - 1) := by
  have hps : (0 : ℕ) < page_size := by norm_num [page_size]
  obtain ⟨-, -, hsz, -, hev⟩ := sync_pages_all_ok page_size hps none
    (List.range 60000).length (List.range 60000) le_rfl 0 0 init_rate_state
  have hsizes : (sync_pages page_size all_ok_script none (List.range 60000)
      0 0 init_rate_state).pages.map List.length =
      [25000, 25000, 10000] := by
    rw [hsz]
    simp only [List.length_range]
    decide
  have hpl : (sync_pages page_size all_ok_script none (List.range 60000)
      0 0 init_rate_state).pages.length = 3 := by
    have h := congrArg List.length hsizes
    rw [List.length_map] at h
    exact h
  have hcnt : count_pauses (sync_pages page_size all_ok_script none
      (List.range 60000) 0 0 init_rate_state).events = 3 := by
    rw [hev, count_pauses_ok_trace, hsizes]
    rfl
  have hunf : sync_all_data_paginated all_ok_script none (List.range 60000)
      false init_rate_state =
      sync_pages page_size all_ok_script none (List.range 60000) 0 0
        init_rate_state := rfl
  rw [hunf]
  refine ⟨hpl, hcnt, ?_, ?_⟩
  · rw [hev, hsizes]
    rfl
  · rw [hcnt, hpl]
    decide

/-- C7 amended: in a paginated run whose pages all dispatch
successfully, the fixed pacing pause occurs after every sent page —
between consecutive pages and also after the last page, just before
the terminal empty fetch — so the number of pauses equals the number
of pages (the full trace is fetch, sent, pause per page, then one
final empty fetch). -/
theorem c7_amended_pause_after_every_page (l : List ℕ)
    (override : Option ℕ) (s : RateState) :
    (sync_all_data_paginated all_ok_script override l false s).events =
      ok_trace page_size
        ((sync_all_data_paginated all_ok_script override l false
          s).pages.map List.length) 0 ∧
    count_pauses
        (sync_all_data_paginated all_ok_script override l false s).events =
      (sync_all_data_paginated all_ok_script override l false
        s).pages.length := by
  have hps : (0 : ℕ) < page_size := by norm_num [page_size]
  obtain ⟨-, -, -, -, hev⟩ :=
    sync_pages_all_ok page_size hps override l.length l le_rfl 0 0 s
  have hunf : sync_all_data_paginated all_ok_script override l false s =
      sync_pages page_size all_ok_script override l 0 0 s := rfl
  rw [hunf, hev, count_pauses_ok_trace, List.length_map]
  exact ⟨rfl, rfl⟩

theorem run_batches_cons_of_fail (script : ℕ → AttemptResult) (b : ℕ)
    (rest : List ℕ) (s : RateState) (idx : ℕ)
    (h : (run_retries script max_retries s idx).ok = false) :
    run_batches script (b :: rest) s idx =
      ⟨false, (run_retries script max_retries s idx).state,
        (run_retries script max_retries s idx).nextIdx,
        [(run_retries script max_retries s idx).calls],
        [(run_retries script max_retries s idx).attempts]⟩ := by
  rw [run_batches_cons, if_neg]
  simp [h]

theorem run_batches_cons_of_ok (script : ℕ → AttemptResult) (b : ℕ)
    (rest : List ℕ) (s : RateState) (idx : ℕ)
    (h : (run_retries script max_retries s idx).ok = true) :
    (run_batches script (b :: rest) s idx).ok =
      (run_batches script rest (run_retries script max_retries s idx).state
        (run_retries script max_retries s idx).nextIdx).ok ∧
    (run_batches script (b :: rest) s idx).state =
      (run_batches script rest (run_retries script max_retries s idx).state
        (run_retries script max_retries s idx).nextIdx).state ∧
    (run_batches script (b :: rest) s idx).nextIdx =
      (run_batches script rest (run_retries script max_retries s idx).state
        (run_retries script max_retries s idx).nextIdx).nextIdx ∧
    (run_batches script (b :: rest) s idx).batchAttempts =
      (run_retries script max_retries s idx).attempts ::
        (run_batches script rest
          (run_retries script max_retries s idx).state
          (run_retries script max_retries s idx).nextIdx).batchAttempts := by
  rw [run_batches_cons, if_pos h]
  exact ⟨rfl, rfl, rfl, rfl⟩

theorem run_batches_mid_fail (script : ℕ → AttemptResult) :
    ∀ (pre : List ℕ) (b : ℕ) (post : List ℕ) (s : RateState) (idx : ℕ),
      (run_batches script pre s idx).ok = true →
      (run_retries script max_retries (run_batches script pre s idx).state
          (run_batches script pre s idx).nextIdx).ok = false →
      (run_batches script (pre ++ b :: post) s idx).ok = false ∧
      (run_batches script (pre ++ b :: post) s idx).batchAttempts.length =
        pre.length + 1 := by
  intro pre
  induction pre with
  | nil =>
      intro b post s idx _ hfail
      have hfail' : (run_retries script max_retries s idx).ok = false :=
        hfail
      rw [List.nil_append,
        run_batches_cons_of_fail script b post s idx hfail']
      exact ⟨rfl, rfl⟩
  | cons a pre' ih =>
      intro b post s idx hpre hfail
      have hok : (run_retries script max_retries s idx).ok = true := by
        cases hok : (run_retries script max_retries s idx).ok with
        | true => rfl
        | false =>
            rw [run_batches_cons_of_fail script a pre' s idx hok] at hpre
            exact absurd hpre (by simp)
      obtain ⟨e1, e2, e3, e4⟩ := run_batches_cons_of_ok script a pre' s idx
        hok
      rw [e1] at hpre
      rw [e2, e3] at hfail
      obtain ⟨f1, f2⟩ := ih b post
        (run_retries script max_retries s idx).state
        (run_retries script max_retries s idx).nextIdx hpre hfail
      obtain ⟨g1, -, -, g4⟩ := run_batches_cons_of_ok script a
        (pre' ++ b :: post) s idx hok
      rw [List.cons_append]
      constructor
      · rw [g1]
        exact f1
      · rw [g4, List.length_cons, f2, List.length_cons]

theorem sync_pages_fail_stops (P : ℕ) (script : ℕ → AttemptResult)
    (override : Option ℕ) :
    ∀ (n : ℕ) (l : List ℕ), l.length ≤ n →
    ∀ (offset idx : ℕ) (s : RateState),
      (sync_pages P script override l offset idx s).ok = false →
      ∃ t m, (sync_pages P script override l offset idx s).events =
        t ++ [SyncEvent.pageFail m] := by
  intro n
  induction n with
  | zero =>
      intro l hl offset idx s hfail
      have hnil : l = [] := List.length_eq_zero.mp (Nat.le_zero.mp hl)
      subst hnil
      rw [sync_pages] at hfail
      simp [List.take_nil] at hfail
  | succ n ih =>
      intro l hl offset idx s hfail
      by_cases hrow : (l.take P).isEmpty = true
      · rw [sync_pages, dif_pos hrow] at hfail
        exact absurd hfail (by simp)
      · by_cases hb : (bulk_insert script (l.take P).length override s
            idx).ok = true
        · rw [sync_pages, dif_neg hrow, if_pos hb] at hfail
          have hP0 : P ≠ 0 := by rintro rfl; exact hrow rfl
          have hlnil : l ≠ [] := by rintro rfl; exact hrow (by simp)
          have hlpos : 0 < l.length := List.length_pos.mpr hlnil
          obtain ⟨t, m, ht⟩ := ih (l.drop P)
            (by rw [List.length_drop]; omega) (offset + P)
            (bulk_insert script (l.take P).length override s idx).nextIdx
            (bulk_insert script (l.take P).length override s idx).state
            hfail
          refine ⟨SyncEvent.fetch offset (l.take P).length ::
            SyncEvent.sent (l.take P).length :: SyncEvent.pause :: t, m, ?_⟩
          rw [sync_pages, dif_neg hrow, if_pos hb]
          show SyncEvent.fetch offset (l.take P).length ::
            SyncEvent.sent (l.take P).length :: SyncEvent.pause ::
            (sync_pages P script override (l.drop P) (offset + P)
              (bulk_insert script (l.take P).length override s idx).nextIdx
              (bulk_insert script (l.take P).length override s
                idx).state).events = _
          rw [ht]
          rfl
        · rw [sync_pages, dif_neg hrow, if_neg hb]
          exact ⟨[SyncEvent.fetch offset (l.take P).length],
            (l.take P).length, rfl⟩

/-- C8: fail-fast on retry exhaustion, at both levels. If the batches
before position `k` all succeed and batch `k`'s retry loop fails, the
whole `bulk_insert` call returns `False` having dispatched exactly
`k + 1` batches — none of the remaining batches is attempted; the
all-failing script exhausts exactly `max_retries = 5` attempts on one
batch without success; whenever the paginated orchestrator returns
`False`, its event trace ends at the failing page's dispatch (no
subsequent page is fetched or dispatched); and concretely, on 60000
records with every attempt failing, the run returns `False` after
fetching and failing only the first page. -/
theorem c8_fail_fast :
    (∀ (script : ℕ → AttemptResult) (pre : List ℕ) (b : ℕ)
        (post : List ℕ) (s : RateState) (idx : ℕ),
      (run_batches script pre s idx).ok = true →
      (run_retries script max_retries (run_batches script pre s idx).state
          (run_batches script pre s idx).nextIdx).ok = false →
      (run_batches script (pre ++ b :: post) s idx).ok = false ∧
      (run_batches script (pre ++ b :: post) s idx).batchAttempts.length =
        pre.length + 1) ∧
    (∀ (s : RateState) (idx : ℕ),
      (run_retries all_fail_script max_retries s idx).ok = false ∧
      (run_retries all_fail_script max_retries s idx).attempts.length =
        max_retries) ∧
    (∀ (P : ℕ) (script : ℕ → AttemptResult) (override : Option ℕ)
        (l : List ℕ) (offset idx : ℕ) (s : RateState),
      (sync_pages P script override l offset idx s).ok = false →
      ∃ t m, (sync_pages P script override l offset idx s).events =
        t ++ [SyncEvent.pageFail m]) ∧
    ((sync_all_data_paginated all_fail_script none (List.range 60000) false
        init_rate_state).ok = false ∧
      (sync_all_data_paginated all_fail_script none (List.range 60000)
        false init_rate_state).events =
        [.fetch 0 25000, .pageFail 25000]) := by
  refine ⟨run_batches_mid_fail, fun s idx => ⟨rfl, rfl⟩,
    fun P script override l offset idx s =>
      sync_pages_fail_stops P script override l.length l le_rfl offset idx
        s, ?_⟩
  have hunf : sync_all_data_paginated all_fail_script none
      (List.range 60000) false init_rate_state =
      sync_pages page_size all_fail_script none (List.range 60000) 0 0
        init_rate_state := rfl
  have hrow : ¬((List.range 60000).take page_size).isEmpty = true := by
    simp [List.isEmpty_iff, List.take_eq_nil_iff, page_size]
  have hlen : ((List.range 60000).take page_size).length = 25000 := by
    rw [List.length_take, List.length_range]
    norm_num [page_size]
  have hbf : (bulk_insert all_fail_script 25000 none init_rate_state
      0).ok = false := by decide
  rw [hunf, sync_pages, dif_neg hrow, hlen, if_neg (by rw [hbf]; simp)]
  exact ⟨rfl, rfl⟩

theorem c8_fail_fast_witness :
    (run_batches all_fail_script ([] ++ 100 :: [50]) init_rate_state
        0).ok = false ∧
    (run_batches all_fail_script ([] ++ 100 :: [50]) init_rate_state
        0).batchAttempts.length = ([] : List ℕ).length + 1 := by
  have h := c8_fail_fast
  exact h.1 all_fail_script [] 100 [50] init_rate_state 0 rfl
    (h.2.1 init_rate_state 0).1
